import Mathlib

/-!
Shallow embedding of `pydoof/__init__.py` (the `pydoof` client library).

The embedding models:
* Python values that flow through the library (`PyVal`): `None`, booleans,
  strings, integers, plain `dict`s, `Item` instances (the `dict` subclass
  defined at the bottom of the module) and lists.  A plain `dict` and an
  `Item` are distinct constructors because the source distinguishes them
  with the exact-type test `type(value) == dict`.
* Python runtime errors that the modelled code can raise (`PyError`).
* The `Item` wrapper: `Item.__init__` / `Item._hidrate` /
  `Item.__getattr__` / `Item.__setattr__`.
* The `SearchEngine` methods named by the claims: `all`, `get_datatypes`,
  `add_item`, `update_item`, `delete_item`, `process`, `query` and the
  URL-id extraction helper `_obtain_id` (the regex
  `/(?P<hashid>\w{32})/(items/\w+|tasks)/(?P<id>[\w-]+)/?$` applied with
  `re.search`).

HTTP transport is out of scope (spec section 1): the management / search
API collaborators are modelled as explicit inputs — an `ApiResult` value
(parsed JSON body plus status code) or, for `query`, a function argument
standing for `SearchApiClient.search_api_call`.
-/

/-- Python runtime errors relevant to the modelled code paths. -/
inductive PyError where
  /-- `KeyError`, raised by `dict.__getitem__` on a missing key. -/
  | keyError
  /-- `NameError`, raised when evaluating an unbound name. -/
  | nameError
  /-- `AttributeError`, raised e.g. by `None.groupdict()` when
  `re.search` found no match. -/
  | attributeError
  /-- `TypeError`, raised when a value has the wrong runtime type. -/
  | typeError
  /-- `IndexError`, raised by `[...][0]` on an empty list. -/
  | indexError
deriving DecidableEq

/-- Python values handled by the library.  `dict` (exact type `dict`) and
`item` (exact type `Item`, the `dict` subclass) are separate constructors
because `Item.__init__` and `Item._hidrate` test `type(value) == dict`,
which is `False` for `Item` instances.  Both carry their entries as an
insertion-ordered association list, matching Python dict semantics. -/
inductive PyVal where
  | none
  | bool (b : Bool)
  | int (n : Int)
  | str (s : String)
  | dict (entries : List (String × PyVal))
  | item (entries : List (String × PyVal))
  | list (elems : List PyVal)

/-- Python `dict.__setitem__` on an insertion-ordered association list:
overwrite the value in place if the key exists, else append. -/
def setItem : List (String × PyVal) → String → PyVal → List (String × PyVal)
  | [], k, v => [(k, v)]
  | (k', v') :: rest, k, v =>
    if k' = k then (k, v) :: rest else (k', v') :: setItem rest k v

/-- Key lookup in an insertion-ordered association list (first match,
matching Python dict lookup on its unique keys). -/
def lookupEntry : List (String × PyVal) → String → Option PyVal
  | [], _ => Option.none
  | (k', v) :: rest, k => if k' = k then some v else lookupEntry rest k

/-- Python `dict.__getitem__`: the stored value, or `KeyError`. -/
def dict_getitem (es : List (String × PyVal)) (k : String) : Except PyError PyVal :=
  match lookupEntry es k with
  | some v => Except.ok v
  | Option.none => Except.error PyError.keyError

mutual

/-- Source lines 299-305, the per-value transformation done by
`Item._hidrate`: a value of exact type `dict` becomes `Item(value)`
(a fresh `Item` hydrated from it), a value of exact type `list` has each
element of exact type `dict` wrapped the same way, and every other value
(including `Item` instances, whose exact type is not `dict`) passes
through unchanged. -/
def hidrateValue : PyVal → PyVal
  | PyVal.dict es => PyVal.item (hidrateLoop es [])
  | PyVal.list xs => PyVal.list (hidrateElems xs)
  | v => v

/-- Source lines 300-305, the loop body of `Item._hidrate`: iterate over
the entries of the argument dict in order, transform each value with
`hidrateValue`, and store it into `self` (which starts empty) via
`self[key] = value`. -/
def hidrateLoop : List (String × PyVal) → List (String × PyVal) → List (String × PyVal)
  | [], self => self
  | (k, v) :: rest, self => hidrateLoop rest (setItem self k (hidrateValue v))

/-- Source line 304: `map(lambda x: Item(x) if type(x) == dict else x, value)`. -/
def hidrateElems : List PyVal → List PyVal
  | [] => []
  | x :: xs =>
    (match x with
     | PyVal.dict es => PyVal.item (hidrateLoop es [])
     | x' => x') :: hidrateElems xs

end

/-- Source lines 288-291, `Item.__init__(self, initial_object=None)`:
the new `Item` starts empty and is hydrated from `initial_object` only
when `type(initial_object) == dict` — an exact-type test that is `False`
for `None`, lists, and `Item` instances (the subclass). -/
def Item_init (initial_object : PyVal) : PyVal :=
  match initial_object with
  | PyVal.dict es => PyVal.item (hidrateLoop es [])
  | _ => PyVal.item []

/-- Exact-type test `type(v) == dict` on a modelled Python value. -/
def isPlainDict : PyVal → Bool
  | PyVal.dict _ => true
  | _ => false

/-- Python 2 `\w` on a `str` pattern without locale/unicode flags:
`[a-zA-Z0-9_]`. -/
def isWordChar (c : Char) : Bool :=
  (('a' ≤ c) && (c ≤ 'z')) || (('A' ≤ c) && (c ≤ 'Z')) ||
    (('0' ≤ c) && (c ≤ '9')) || (c = '_')

/-- Character class `[\w-]` of the regex's `id` group. -/
def isIdChar (c : Char) : Bool :=
  isWordChar c || (c = '-')

/-- Literal segment `items/` of the regex alternation `(items/\w+|tasks)`. -/
def itemsLit : List Char := ['i', 't', 'e', 'm', 's', '/']

/-- Literal segment `tasks` of the regex alternation `(items/\w+|tasks)`. -/
def tasksLit : List Char := ['t', 'a', 's', 'k', 's']

/-- Remainders accepted by the regex tail `/?$`: after the greedy
`[\w-]+` id run, Python accepts end of string, a final `/`, and — because
`$` also matches just before a terminal newline — a final `\n` after the
optional slash. -/
def idTailOk (l : List Char) : Prop :=
  l = [] ∨ l = ['/'] ∨ l = ['\n'] ∨ l = ['/', '\n']

instance (l : List Char) : Decidable (idTailOk l) := by
  unfold idTailOk
  infer_instance

/-- Regex fragment `/(?P<id>[\w-]+)/?$` of `_obtain_id`'s pattern,
matched at a fixed position: a `/`, then the greedy maximal run of
`[\w-]` characters (nonempty), then an accepted tail.  Greediness with
backtracking collapses to the maximal run because `/` is not an id
character, so no shorter run can satisfy the rest of the pattern. -/
def matchIdPart (u : List Char) : Option (List Char) :=
  match u with
  | [] => Option.none
  | c :: rest =>
    if c = '/' then
      if rest.takeWhile isIdChar = [] then Option.none
      else if idTailOk (rest.dropWhile isIdChar) then some (rest.takeWhile isIdChar)
      else Option.none
    else Option.none

/-- Full regex `/(?P<hashid>\w{32})/(items/\w+|tasks)/(?P<id>[\w-]+)/?$`
matched at a fixed position (one attempt of `re.search`'s scan): a `/`,
exactly 32 word characters, a `/`, then either `items/` followed by a
nonempty greedy word-character run or the literal `tasks`, then the id
part.  The alternation is deterministic: no string starting with
`items/` starts with `tasks`, and a failed `items` branch can never be
rescued by the `tasks` branch. -/
def matchAt (s : List Char) : Option (List Char) :=
  match s with
  | [] => Option.none
  | c :: rest =>
    if c = '/' then
      if (rest.take 32).length = 32 ∧ (rest.take 32).all isWordChar = true then
        match rest.drop 32 with
        | [] => Option.none
        | c2 :: rest3 =>
          if c2 = '/' then
            if rest3.take 6 = itemsLit then
              if (rest3.drop 6).takeWhile isWordChar = [] then Option.none
              else matchIdPart ((rest3.drop 6).dropWhile isWordChar)
            else if rest3.take 5 = tasksLit then
              matchIdPart (rest3.drop 5)
            else Option.none
          else Option.none
      else Option.none
    else Option.none

/-- Scan of `re.search`: try the pattern at each start position from the
left, returning the first (leftmost) successful match's `id` group. -/
def searchAux : List Char → Option (List Char)
  | [] => Option.none
  | c :: rest =>
    match matchAt (c :: rest) with
    | some r => some r
    | Option.none => searchAux rest

/-- Source lines 261-273, `SearchEngine._obtain_id(self, url)`: apply
`re.search` with the pattern
`/(?P<hashid>\w{32})/(items/\w+|tasks)/(?P<id>[\w-]+)/?$` to `url` and
return the `id` group.  `Option.none` models the `AttributeError` raised
by `.groupdict()` when `re.search` returns `None`. -/
def _obtain_id (url : String) : Option String :=
  (searchAux url.toList).map String.mk

/-- Entries of `requests.codes` used by the source. -/
def requests.codes.OK : Nat := 200

/-- Status code `requests.codes.CREATED`. -/
def requests.codes.CREATED : Nat := 201

/-- Status code `requests.codes.NO_CONTENT`. -/
def requests.codes.NO_CONTENT : Nat := 204

/-- Status code `requests.codes.NOT_FOUND`. -/
def requests.codes.NOT_FOUND : Nat := 404

/-- Result of a management API call as the source consumes it: the
collaborator `ManagementApiClient.management_api_call` returns a dict
with the HTTP `status_code` and the parsed JSON `response` object
(modelled as its entries). -/
structure ApiResult where
  status_code : Nat
  response : List (String × PyVal)

/-- Names bound at module level in `pydoof/__init__.py` (imports and
module globals), used to model Python name resolution. -/
def moduleGlobals : List String :=
  ["re", "json", "requests", "ManagementApiClient", "SearchApiClient",
   "API_KEY", "CLUSTER_REGION", "MANAGEMENT_DOMAIN", "SEARCH_DOMAIN",
   "MANAGEMENT_VERSION", "SEARCH_VERSION", "HTTPS", "SearchEngine", "Item"]

/-- Python builtins that the module's code could reach via the builtins
scope; neither `self` (inside the classmethod `all`) nor `request` (the
typo on source line 193) is among them. -/
def builtinNames : List String :=
  ["map", "len", "type", "dict", "list", "str", "int", "super", "object",
   "True", "False", "None"]

/-- Python name resolution (locals, then module globals, then builtins):
evaluating a name bound in none of the scopes raises `NameError`. -/
def resolveName (localNames : List String) (n : String) : Except PyError Unit :=
  if n ∈ localNames ∨ n ∈ moduleGlobals ∨ n ∈ builtinNames then Except.ok ()
  else Except.error PyError.nameError

/-- The `SearchEngine` object state set by `__init__` (source lines
61-65): the engine identifier, the optional display name, and the
optional cached data-type list. -/
structure SearchEngineRec where
  hashid : String
  name : Option String
  datatypes : Option (List String)

/-- Properties of one engine in the management API's directory response
(`get_api_root`): its display name and its item-type map, whose keys are
the data-type names. -/
structure EngineProps where
  name : String
  items : List (String × PyVal)

/-- Source lines 45-58, the classmethod `SearchEngine.all()`: its body
first evaluates `self.get_api_root()` (line 55), but `self` is not bound
in the classmethod (whose names are `cls`, `search_engines`, `hashid`,
`props`), in the module globals, or in the builtins — so every call
raises `NameError` before any network access.  The `Except.ok` branch
models what the loop would build if the name resolved: one
`SearchEngine(hashid, name=props['name'], datatypes=props['items'].keys())`
per directory entry. -/
def SearchEngine.all (apiRoot : List (String × EngineProps)) :
    Except PyError (List SearchEngineRec) :=
  match resolveName ["cls", "search_engines", "hashid", "props"] "self" with
  | Except.error e => Except.error e
  | Except.ok _ =>
    Except.ok (apiRoot.map fun pr =>
      ⟨pr.1, some pr.2.name, some (pr.2.items.map Prod.fst)⟩)

/-- Python truthiness of the `_datatypes` cache (`None` or a list):
`not self._datatypes` is `True` exactly when this is `false`. -/
def truthyCache : Option (List String) → Bool
  | Option.none => false
  | some l => !l.isEmpty

/-- Python truthiness of the module global `API_KEY` (`None` or a
string). -/
def truthyKey : Option String → Bool
  | Option.none => false
  | some s => !s.isEmpty

/-- Result of one `get_datatypes` call: the returned value, the cache
(`self._datatypes`) after the call, and whether the management API was
contacted. -/
structure GetDatatypesResult where
  result : Option (List String)
  newCache : Option (List String)
  networkCalled : Bool
deriving DecidableEq

/-- Source lines 67-80, `SearchEngine.get_datatypes(self)`: when
`not self._datatypes and API_KEY` holds, fetch the directory, cache the
data-type names of its first entry (`[...][0]` raises `IndexError` on an
empty directory), and return the cache; otherwise return the cache
untouched without any network call. -/
def get_datatypes (apiKey : Option String) (cache : Option (List String))
    (apiRoot : List (String × EngineProps)) : Except PyError GetDatatypesResult :=
  if truthyCache cache = false ∧ truthyKey apiKey = true then
    match apiRoot.map (fun pr => pr.2.items.map Prod.fst) with
    | [] => Except.error PyError.indexError
    | ds :: _ => Except.ok ⟨some ds, some ds, true⟩
  else Except.ok ⟨cache, cache, false⟩

/-- Source lines 117-135, `SearchEngine.add_item(self, item_type,
item_description)`: POST the serialized description, then return
`self._obtain_id(result['response']['url'])`.  A missing `url` key is a
`KeyError`, a non-string value a `TypeError`, and an unmatched URL the
`AttributeError` from `_obtain_id`. -/
def add_item (item_type : String) (item_description : PyVal) (result : ApiResult) :
    Except PyError String :=
  match dict_getitem result.response "url" with
  | Except.error e => Except.error e
  | Except.ok (PyVal.str u) =>
    match _obtain_id u with
    | some i => Except.ok i
    | Option.none => Except.error PyError.attributeError
  | Except.ok _ => Except.error PyError.typeError

/-- Source lines 137-156, `SearchEngine.update_item(self, item_type,
item_id, item_description)`: performs the PUT, binds the result, and
then falls off the end of the function — there is no `return`
statement, so every call returns `None` (not the `True` promised by the
docstring). -/
def update_item (item_type item_id : String) (item_description : PyVal)
    (result : ApiResult) : PyVal :=
  PyVal.none

/-- Source lines 158-176, `SearchEngine.delete_item(self, item_type,
item_id)`: DELETE, then return `True` iff
`result['status_code'] == requests.codes.NO_CONTENT`, else `False`. -/
def delete_item (result : ApiResult) : Bool :=
  if result.status_code = requests.codes.NO_CONTENT then true else false

/-- Source lines 178-194, `SearchEngine.process(self)`: POST the
processing trigger.  On `requests.codes.CREATED`, return
`(True, self._obtain_id(result['response']['link']))`.  Otherwise the
source evaluates `request.codes.OK` (line 193) — `request` is a typo
for `requests` and is bound in no scope, so every non-Created response
raises `NameError`.  The unreachable `Except.ok` continuation models
lines 193-194 as written (`(False, id)` on OK, implicit `None`
otherwise). -/
def process (result : ApiResult) : Except PyError (Option (Bool × String)) :=
  if result.status_code = requests.codes.CREATED then
    match dict_getitem result.response "link" with
    | Except.error e => Except.error e
    | Except.ok (PyVal.str link) =>
      match _obtain_id link with
      | some i => Except.ok (some (true, i))
      | Option.none => Except.error PyError.attributeError
    | Except.ok _ => Except.error PyError.typeError
  else
    match resolveName ["self", "result"] "request" with
    | Except.error e => Except.error e
    | Except.ok _ =>
      if result.status_code = requests.codes.OK then
        match dict_getitem result.response "link" with
        | Except.error e => Except.error e
        | Except.ok (PyVal.str link) =>
          match _obtain_id link with
          | some i => Except.ok (some (false, i))
          | Option.none => Except.error PyError.attributeError
        | Except.ok _ => Except.error PyError.typeError
      else Except.ok Option.none

/-- Argument record of one `SearchApiClient.search_api_call` invocation,
exactly as `query` passes them (source lines 252-254): the engine's
hashid, the query term, `page`, `filters`, `query_name`, and the extra
keyword parameters. -/
structure QueryArgs where
  hashid : String
  query_term : String
  page : Int
  filters : PyVal
  query_name : PyVal
  kwargs : List (String × PyVal)

/-- Source lines 229-256, `SearchEngine.query(self, query_term, page=1,
filters=None, query_name=None, **kwargs)`: delegate to
`search_api_call` (modelled as the function argument, returning the
parsed JSON dict) and return `response['response']`. -/
def query (search_api_call : QueryArgs → List (String × PyVal))
    (hashid query_term : String) (page : Int) (filters query_name : PyVal)
    (kwargs : List (String × PyVal)) : Except PyError PyVal :=
  dict_getitem (search_api_call ⟨hashid, query_term, page, filters, query_name, kwargs⟩)
    "response"

/-- C2 counterexample: wrapping is not idempotent.  For the one-entry
mapping `{'a': 'va'}`, `Item(Item({'a': 'va'}))` is the empty `Item`
(because `type(Item(...)) == dict` is `False`, so `__init__` skips
`_hidrate`), while `Item({'a': 'va'})` keeps the entry — so the two are
observably different. -/
theorem item_wrap_not_idempotent :
    Item_init (Item_init (PyVal.dict [("a", PyVal.str "va")])) ≠
      Item_init (PyVal.dict [("a", PyVal.str "va")]) := by
  simp [Item_init, hidrateLoop, hidrateValue, setItem]

/-- C2 (amended): wrapping an already-wrapped structure never
double-wraps, but it also keeps none of the entries: for every value
`v`, `Item(Item(v))` is the empty `Item`, so `wrap (wrap v) = wrap v`
holds only when `wrap v` has no entries. -/
theorem item_wrap_wrap_is_empty (v : PyVal) :
    Item_init (Item_init v) = PyVal.item [] ∧
      (Item_init (Item_init v) = Item_init v ↔ Item_init v = PyVal.item []) := by
  have h : Item_init (Item_init v) = PyVal.item [] := by
    cases v <;> simp [Item_init]
  refine ⟨h, ?_, ?_⟩
  · intro h2
    rw [← h2, h]
  · intro h2
    rw [h2]
    rfl

/-- C10: constructing an `Item` from any initial value whose exact type
is not `dict` — `None`, a list, an already-constructed `Item`, or any
other value — yields an empty record: no keys are copied. -/
theorem item_init_non_dict_empty (v : PyVal) (h : isPlainDict v = false) :
    Item_init v = PyVal.item [] := by
  cases v <;> simp_all [isPlainDict, Item_init]

/-- Witness for `item_init_non_dict_empty`: an already-constructed
`Item` holding one entry, a list, and `None` all hydrate to the empty
record. -/
theorem item_init_non_dict_empty_witness :
    isPlainDict (PyVal.item [("a", PyVal.str "va")]) = false ∧
      Item_init (PyVal.item [("a", PyVal.str "va")]) = PyVal.item [] ∧
      Item_init (PyVal.list [PyVal.int 1]) = PyVal.item [] ∧
      Item_init PyVal.none = PyVal.item [] :=
  ⟨rfl, item_init_non_dict_empty _ rfl, item_init_non_dict_empty _ rfl,
    item_init_non_dict_empty _ rfl⟩

/-- C3: `delete_item` returns `True` exactly when the server status is
`requests.codes.NO_CONTENT` (204); every other status — `Not Found`,
`OK`, `Created`, `Accepted` (202) — deterministically yields `False`,
and the function is total (it never raises on a status code). -/
theorem delete_item_iff_no_content (result : ApiResult) :
    (delete_item result = true ↔ result.status_code = requests.codes.NO_CONTENT) ∧
      delete_item ⟨requests.codes.NOT_FOUND, []⟩ = false ∧
      delete_item ⟨requests.codes.OK, []⟩ = false ∧
      delete_item ⟨requests.codes.CREATED, []⟩ = false ∧
      delete_item ⟨202, []⟩ = false := by
  refine ⟨?_, rfl, rfl, rfl, rfl⟩
  unfold delete_item
  by_cases h : result.status_code = requests.codes.NO_CONTENT <;> simp [h]

/-- C5 evidence: `update_item` has no `return` statement, so every call
— in particular every successful PUT — evaluates to Python `None`,
never to the `True` success indicator promised by its docstring
(source line 151). -/
theorem update_item_returns_none (item_type item_id : String)
    (item_description : PyVal) (result : ApiResult) :
    update_item item_type item_id item_description result = PyVal.none ∧
      update_item item_type item_id item_description result ≠ PyVal.bool true := by
  exact ⟨rfl, by simp [update_item]⟩

/-- C6: with no credential configured (`API_KEY` falsy: `None` or the
empty string), `get_datatypes` returns the cached value unchanged,
raises no error, performs no network call, and — since the cache is
unchanged — an immediately following call in the same state returns the
very same value, again without network access. -/
theorem get_datatypes_no_key (apiKey : Option String) (cache : Option (List String))
    (apiRoot : List (String × EngineProps)) (hk : truthyKey apiKey = false) :
    get_datatypes apiKey cache apiRoot = Except.ok ⟨cache, cache, false⟩ ∧
      ∀ s : GetDatatypesResult,
        get_datatypes apiKey cache apiRoot = Except.ok s →
          get_datatypes apiKey s.newCache apiRoot = Except.ok s ∧
            s.networkCalled = false := by
  have h1 : get_datatypes apiKey cache apiRoot = Except.ok ⟨cache, cache, false⟩ := by
    unfold get_datatypes
    rw [if_neg]
    simp [hk]
  refine ⟨h1, ?_⟩
  intro s hs
  rw [h1] at hs
  have hs' : s = ⟨cache, cache, false⟩ := by
    cases hs
    rfl
  subst hs'
  exact ⟨h1, rfl⟩

/-- Witness for `get_datatypes_no_key`: `API_KEY = None`, empty cache,
nonempty directory — both consecutive calls return the absent cache
without touching the network. -/
theorem get_datatypes_no_key_witness :
    truthyKey Option.none = false ∧
      get_datatypes Option.none Option.none [("h", ⟨"engine", [("product", PyVal.none)]⟩)] =
        Except.ok ⟨Option.none, Option.none, false⟩ :=
  ⟨rfl, (get_datatypes_no_key Option.none Option.none
    [("h", ⟨"engine", [("product", PyVal.none)]⟩)] rfl).1⟩

/-- C7 evidence: every call of the classmethod `SearchEngine.all()`
raises `NameError` — its body reads the unbound name `self` (source
line 55) — so it can never return the list of engines promised by its
docstring and the spec, whatever the directory contains. -/
theorem searchengine_all_raises_nameerror (apiRoot : List (String × EngineProps)) :
    SearchEngine.all apiRoot = Except.error PyError.nameError := rfl

/-- C9: `query` hands `search_api_call` exactly the argument record
built from its parameters — hashid, query term, page number, filter
mapping, query name and extra keyword parameters, all unchanged — and
returns exactly the `response` sub-object of the collaborator's result
(a `KeyError` surfacing when the collaborator's dict lacks one). -/
theorem query_forwards_and_projects
    (search_api_call : QueryArgs → List (String × PyVal))
    (hashid query_term : String) (page : Int) (filters query_name : PyVal)
    (kwargs : List (String × PyVal)) :
    query search_api_call hashid query_term page filters query_name kwargs =
      dict_getitem
        (search_api_call ⟨hashid, query_term, page, filters, query_name, kwargs⟩)
        "response" ∧
      ∀ r : PyVal,
        lookupEntry
            (search_api_call ⟨hashid, query_term, page, filters, query_name, kwargs⟩)
            "response" = some r →
          query search_api_call hashid query_term page filters query_name kwargs =
            Except.ok r := by
  refine ⟨rfl, ?_⟩
  intro r hr
  simp [query, dict_getitem, hr]

/-- Witness for `query_forwards_and_projects`, echoing the spec's
example: `query("shoes", page=2, filters={"brand": ["nike","adidas"]})`
against a collaborator that records its arguments — the page and filter
mapping arrive unchanged and the `response` sub-object comes back. -/
theorem query_forwards_and_projects_witness :
    query
        (fun a => [("response",
          PyVal.dict [("page", PyVal.int a.page), ("filters", a.filters)])])
        "h" "shoes" 2
        (PyVal.dict [("brand", PyVal.list [PyVal.str "nike", PyVal.str "adidas"])])
        PyVal.none [] =
      Except.ok (PyVal.dict
        [("page", PyVal.int 2),
         ("filters",
          PyVal.dict [("brand", PyVal.list [PyVal.str "nike", PyVal.str "adidas"])])]) :=
  (query_forwards_and_projects
      (fun a => [("response",
        PyVal.dict [("page", PyVal.int a.page), ("filters", a.filters)])])
      "h" "shoes" 2
      (PyVal.dict [("brand", PyVal.list [PyVal.str "nike", PyVal.str "adidas"])])
      PyVal.none []).2 _ rfl

/-- C1 evidence at the spec's own example URL
`https://x/abcdabcdabcdabcdabcdabcdabcd1234/tasks/77`: on status
`Created` (201) the code returns `(True, '77')` as claimed, but on
status `OK` (200) it raises `NameError` — source line 193 reads
`request.codes.OK`, a typo for `requests`, and `request` is bound in no
scope — instead of returning `(False, '77')` as the claim and the
docstring (source lines 185-186) state. -/
theorem process_ok_status_raises_nameerror :
    process ⟨requests.codes.CREATED,
        [("link", PyVal.str "https://x/abcdabcdabcdabcdabcdabcdabcd1234/tasks/77")]⟩ =
      Except.ok (some (true, "77")) ∧
      process ⟨requests.codes.OK,
          [("link", PyVal.str "https://x/abcdabcdabcdabcdabcdabcdabcd1234/tasks/77")]⟩ =
        Except.error PyError.nameError :=
  ⟨rfl, rfl⟩


/-- Greedy run through a fully-satisfying block: `takeWhile` passes over
`l₁` entirely when every element satisfies `p`. -/
theorem takeWhile_append_all {p : Char → Bool} (l₁ l₂ : List Char)
    (h : l₁.all p = true) : (l₁ ++ l₂).takeWhile p = l₁ ++ l₂.takeWhile p := by
  induction l₁ with
  | nil => simp
  | cons c rest ih =>
    simp only [List.all_cons, Bool.and_eq_true] at h
    simp [List.takeWhile_cons, h.1, ih h.2]

/-- Companion of `takeWhile_append_all` for `dropWhile`. -/
theorem dropWhile_append_all {p : Char → Bool} (l₁ l₂ : List Char)
    (h : l₁.all p = true) : (l₁ ++ l₂).dropWhile p = l₂.dropWhile p := by
  induction l₁ with
  | nil => simp
  | cons c rest ih =>
    simp only [List.all_cons, Bool.and_eq_true] at h
    simp [List.dropWhile_cons, h.1, ih h.2]

/-- The id fragment succeeds at the shape `/{id}` or `/{id}/` when the
id is a nonempty `[\w-]` run, and extracts exactly the id. -/
theorem matchIdPart_boundary (i trail : List Char) (hi : i ≠ [])
    (hiw : i.all isIdChar = true) (ht : trail = [] ∨ trail = ['/']) :
    matchIdPart ('/' :: (i ++ trail)) = some i := by
  have htw : (i ++ trail).takeWhile isIdChar = i := by
    rw [takeWhile_append_all i trail hiw]
    rcases ht with rfl | rfl
    · simp
    · have : isIdChar '/' = false := by decide
      simp [List.takeWhile_cons, this]
  have hdw : (i ++ trail).dropWhile isIdChar = trail := by
    rw [dropWhile_append_all i trail hiw]
    rcases ht with rfl | rfl
    · simp
    · have : isIdChar '/' = false := by decide
      simp [List.dropWhile_cons, this]
  have htOk : idTailOk trail := by
    rcases ht with rfl | rfl
    · exact Or.inl rfl
    · exact Or.inr (Or.inl rfl)
  simp [matchIdPart, htw, hdw, hi, htOk]

/-- The full pattern succeeds at the boundary position of a well-shaped
URL tail `/{hashid}/(items/{type}|tasks)/{id}[/]`, extracting the id. -/
theorem matchAt_boundary (h mid i trail : List Char)
    (hh : h.length = 32) (hhw : h.all isWordChar = true)
    (hmid : (∃ t, mid = itemsLit ++ t ∧ t ≠ [] ∧ t.all isWordChar = true) ∨
      mid = tasksLit)
    (hi : i ≠ []) (hiw : i.all isIdChar = true)
    (ht : trail = [] ∨ trail = ['/']) :
    matchAt ('/' :: (h ++ '/' :: (mid ++ '/' :: (i ++ trail)))) = some i := by
  have htake : (h ++ '/' :: (mid ++ '/' :: (i ++ trail))).take 32 = h :=
    List.take_left' hh
  have hdrop : (h ++ '/' :: (mid ++ '/' :: (i ++ trail))).drop 32 =
      '/' :: (mid ++ '/' :: (i ++ trail)) :=
    List.drop_left' hh
  have hidp := matchIdPart_boundary i trail hi hiw ht
  rcases hmid with ⟨t, rfl, htne, htw⟩ | rfl
  · have hassoc : (itemsLit ++ t) ++ '/' :: (i ++ trail) =
        itemsLit ++ (t ++ '/' :: (i ++ trail)) := by
      simp [List.append_assoc]
    have h6 : (itemsLit ++ (t ++ '/' :: (i ++ trail))).take 6 = itemsLit :=
      List.take_left' (by decide)
    have h6d : (itemsLit ++ (t ++ '/' :: (i ++ trail))).drop 6 =
        t ++ '/' :: (i ++ trail) :=
      List.drop_left' (by decide)
    have hwf : isWordChar '/' = false := by decide
    have htw2 : (t ++ '/' :: (i ++ trail)).takeWhile isWordChar = t := by
      rw [takeWhile_append_all t _ htw]
      simp [List.takeWhile_cons, hwf]
    have hdw2 : (t ++ '/' :: (i ++ trail)).dropWhile isWordChar =
        '/' :: (i ++ trail) := by
      rw [dropWhile_append_all t _ htw]
      simp [List.dropWhile_cons, hwf]
    simp [matchAt, htake, hdrop, hh, hhw, hassoc, h6, h6d, htw2, hdw2, htne, hidp]
  · have h6 : (tasksLit ++ '/' :: (i ++ trail)).take 6 ≠ itemsLit := by
      simp [tasksLit, itemsLit, List.take]
    have h5 : (tasksLit ++ '/' :: (i ++ trail)).take 5 = tasksLit :=
      List.take_left' (by decide)
    have h5d : (tasksLit ++ '/' :: (i ++ trail)).drop 5 = '/' :: (i ++ trail) :=
      List.drop_left' (by decide)
    simp [matchAt, htake, hdrop, hh, hhw, h6, h5, h5d, hidp]

/-- Structure of a successful id-fragment match: the input starts with a
slash, the extracted id is the greedy `[\w-]` run after it (nonempty),
and the remainder is one of the accepted tails. -/
theorem matchIdPart_structure {u r : List Char} (h : matchIdPart u = some r) :
    ∃ rest, u = '/' :: rest ∧ r = rest.takeWhile isIdChar ∧
      rest.takeWhile isIdChar ≠ [] ∧ idTailOk (rest.dropWhile isIdChar) := by
  match u with
  | [] => simp [matchIdPart] at h
  | c :: rest =>
    by_cases hc : c = '/'
    · subst hc
      by_cases h1 : rest.takeWhile isIdChar = []
      · simp [matchIdPart, h1] at h
      · by_cases h2 : idTailOk (rest.dropWhile isIdChar)
        · refine ⟨rest, rfl, ?_, h1, h2⟩
          simp [matchIdPart, h1, h2] at h
          exact h.symm
        · simp [matchIdPart, h1, h2] at h
    · simp [matchIdPart, hc] at h

/-- Every successful full-pattern match ends in a successful id-fragment
match on a suffix of the input. -/
theorem matchAt_some_matchIdPart {s r : List Char} (h : matchAt s = some r) :
    ∃ u, u <:+ s ∧ matchIdPart u = some r := by
  match s with
  | [] => simp [matchAt] at h
  | c :: rest =>
    rw [matchAt] at h
    by_cases hc : c = '/'
    · rw [if_pos hc] at h
      by_cases h32 : (rest.take 32).length = 32 ∧ (rest.take 32).all isWordChar = true
      · rw [if_pos h32] at h
        match hd : rest.drop 32 with
        | [] => rw [hd] at h; exact absurd h (by simp)
        | c2 :: rest3 =>
          rw [hd] at h
          dsimp only at h
          have hrest3 : rest3 <:+ c :: rest := by
            have h1 : rest3 <:+ c2 :: rest3 := List.suffix_cons c2 rest3
            have h2 : c2 :: rest3 <:+ rest := hd ▸ List.drop_suffix 32 rest
            exact (h1.trans h2).trans (List.suffix_cons c rest)
          by_cases hc2 : c2 = '/'
          · rw [if_pos hc2] at h
            by_cases h6 : rest3.take 6 = itemsLit
            · rw [if_pos h6] at h
              by_cases hte : (rest3.drop 6).takeWhile isWordChar = []
              · rw [if_pos hte] at h; exact absurd h (by simp)
              · rw [if_neg hte] at h
                refine ⟨(rest3.drop 6).dropWhile isWordChar, ?_, h⟩
                exact ((List.dropWhile_suffix _).trans
                  (List.drop_suffix 6 rest3)).trans hrest3
            · rw [if_neg h6] at h
              by_cases h5 : rest3.take 5 = tasksLit
              · rw [if_pos h5] at h
                exact ⟨rest3.drop 5, (List.drop_suffix 5 rest3).trans hrest3, h⟩
              · rw [if_neg h5] at h; exact absurd h (by simp)
          · rw [if_neg hc2] at h; exact absurd h (by simp)
      · rw [if_neg h32] at h; exact absurd h (by simp)
    · rw [if_neg hc] at h
      exact absurd h (by simp)

/-- Last elements agree along a nonempty suffix. -/
theorem getLast?_of_suffix {s l : List Char} (hs : s <:+ l) (hne : s ≠ []) :
    l.getLast? = s.getLast? := by
  obtain ⟨t, rfl⟩ := hs
  exact List.getLast?_append_of_ne_nil t hne

/-- Dichotomy driving the uniqueness of the extracted id: a
slash-prefixed all-id-character run that is a suffix of `Q ++ '/' :: i`
(with `i` itself an all-id-character run) must be exactly `'/' :: i` —
the runs cannot straddle the separating slash because `/` is not an id
character. -/
theorem slash_run_suffix_eq (Q i r : List Char)
    (hiw : i.all isIdChar = true) (hrw : r.all isIdChar = true)
    (h1 : '/' :: r <:+ Q ++ '/' :: i) : r = i := by
  have h2 : '/' :: i <:+ Q ++ '/' :: i := List.suffix_append Q ('/' :: i)
  have hslash : isIdChar '/' = false := by decide
  rcases List.suffix_or_suffix_of_suffix h1 h2 with hc | hc
  · rcases List.suffix_cons_iff.mp hc with he | hc2
    · exact (List.cons.injEq '/' r '/' i).mp he |>.2
    · exfalso
      have : ('/' : Char) ∈ i := hc2.subset (List.mem_cons_self '/' r)
      rw [List.all_eq_true] at hiw
      rw [hiw '/' this] at hslash
      exact Bool.true_eq_false.mp hslash
  · rcases List.suffix_cons_iff.mp hc with he | hc2
    · exact ((List.cons.injEq '/' i '/' r).mp he |>.2).symm
    · exfalso
      have : ('/' : Char) ∈ r := hc2.subset (List.mem_cons_self '/' i)
      rw [List.all_eq_true] at hrw
      rw [hrw '/' this] at hslash
      exact Bool.true_eq_false.mp hslash

/-- Removing a shared final element preserves the suffix relation. -/
theorem suffix_snoc_cancel {a b : List Char} {x : Char}
    (h : a ++ [x] <:+ b ++ [x]) : a <:+ b := by
  obtain ⟨t, ht⟩ := h
  rw [← List.append_assoc] at ht
  exact ⟨t, List.append_cancel_right ht⟩

/-- Uniqueness of the extracted id: whatever position `re.search` tries
inside a URL ending in `/{id}` or `/{id}/` (with `{id}` a nonempty
`[\w-]` run preceded by a slash), a successful id fragment can only
extract that final `{id}` segment — the match is anchored at the end of
the string, and id runs cannot cross the separating slash. -/
theorem matchIdPart_suffix_id (Q i trail u r : List Char)
    (hi : i ≠ []) (hiw : i.all isIdChar = true)
    (ht : trail = [] ∨ trail = ['/'])
    (hsuf : u <:+ Q ++ '/' :: (i ++ trail))
    (h : matchIdPart u = some r) : r = i := by
  obtain ⟨rest, rfl, hr, hrne, htail⟩ := matchIdPart_structure h
  have hsplit := List.takeWhile_append_dropWhile isIdChar rest
  have htwall : (rest.takeWhile isIdChar).all isIdChar = true :=
    List.all_eq_true.mpr fun x hx => List.mem_takeWhile_imp hx
  have hslash : isIdChar '/' = false := by decide
  have hnl : isIdChar '\n' = false := by decide
  rcases ht with rfl | rfl
  · have hurl : Q ++ '/' :: (i ++ []) = Q ++ '/' :: i := by simp
    rw [hurl] at hsuf
    have hrest : rest <:+ Q ++ '/' :: i :=
      (List.suffix_cons '/' rest).trans hsuf
    have hrem : rest.dropWhile isIdChar <:+ Q ++ '/' :: i :=
      (List.dropWhile_suffix isIdChar).trans hrest
    have hlast : (Q ++ '/' :: i).getLast? = some (i.getLast hi) := by
      rw [List.getLast?_append_of_ne_nil Q (by simp),
        show ('/' :: i) = ['/'] ++ i from rfl,
        List.getLast?_append_of_ne_nil ['/'] hi]
      exact List.getLast?_eq_getLast_of_ne_nil hi
    have hlastid : isIdChar (i.getLast hi) = true :=
      List.all_eq_true.mp hiw _ (List.getLast_mem hi)
    rcases htail with h0 | h0 | h0 | h0
    · have hres : rest.takeWhile isIdChar = rest := by
        rw [h0, List.append_nil] at hsplit
        exact hsplit
      have heq : rest = i :=
        slash_run_suffix_eq Q i rest hiw (hres ▸ htwall) hsuf
      rw [hr, hres, heq]
    · exfalso
      rw [h0] at hrem
      have hg := getLast?_of_suffix hrem (by simp)
      rw [hlast] at hg
      have : i.getLast hi = '/' := by
        simpa using hg
      rw [this] at hlastid
      rw [hslash] at hlastid
      exact Bool.false_ne_true hlastid
    · exfalso
      rw [h0] at hrem
      have hg := getLast?_of_suffix hrem (by simp)
      rw [hlast] at hg
      have : i.getLast hi = '\n' := by
        simpa using hg
      rw [this] at hlastid
      rw [hnl] at hlastid
      exact Bool.false_ne_true hlastid
    · exfalso
      rw [h0] at hrem
      have hg := getLast?_of_suffix hrem (by simp)
      rw [hlast] at hg
      have : i.getLast hi = '\n' := by
        simpa using hg
      rw [this] at hlastid
      rw [hnl] at hlastid
      exact Bool.false_ne_true hlastid
  · have hurl : Q ++ '/' :: (i ++ ['/']) = (Q ++ '/' :: i) ++ ['/'] := by
      simp
    rw [hurl] at hsuf
    have hrest : rest <:+ (Q ++ '/' :: i) ++ ['/'] :=
      (List.suffix_cons '/' rest).trans hsuf
    have hrem : rest.dropWhile isIdChar <:+ (Q ++ '/' :: i) ++ ['/'] :=
      (List.dropWhile_suffix isIdChar).trans hrest
    have hlast : ((Q ++ '/' :: i) ++ ['/']).getLast? = some '/' := by
      rw [List.getLast?_append_of_ne_nil _ (by simp)]
      rfl
    rcases htail with h0 | h0 | h0 | h0
    · exfalso
      have hres : rest.takeWhile isIdChar = rest := by
        rw [h0, List.append_nil] at hsplit
        exact hsplit
      have hrestne : rest ≠ [] := by
        rw [← hres]
        exact hrne
      have hg := getLast?_of_suffix hrest hrestne
      rw [hlast, List.getLast?_eq_getLast_of_ne_nil hrestne] at hg
      have hmem : ('/' : Char) ∈ rest := by
        have : rest.getLast hrestne = '/' := by
          simpa using hg.symm
        rw [← this]
        exact List.getLast_mem hrestne
      have : isIdChar '/' = true :=
        List.all_eq_true.mp (hres ▸ htwall) _ hmem
      rw [hslash] at this
      exact Bool.false_ne_true this
    · have hrest_eq : rest = rest.takeWhile isIdChar ++ ['/'] := by
        rw [h0] at hsplit
        exact hsplit.symm
      have hsuf2 : ('/' :: rest.takeWhile isIdChar) ++ ['/'] <:+
          (Q ++ '/' :: i) ++ ['/'] := by
        have : ('/' :: rest) = ('/' :: rest.takeWhile isIdChar) ++ ['/'] := by
          rw [List.cons_append, ← hrest_eq]
        rw [← this]
        exact hsuf
      have heq : rest.takeWhile isIdChar = i :=
        slash_run_suffix_eq Q i _ hiw htwall (suffix_snoc_cancel hsuf2)
      rw [hr, heq]
    · exfalso
      rw [h0] at hrem
      have hg := getLast?_of_suffix hrem (by simp)
      rw [hlast] at hg
      simp at hg
    · exfalso
      rw [h0] at hrem
      have hg := getLast?_of_suffix hrem (by simp)
      rw [hlast] at hg
      simp at hg

/-- Soundness of the scan: a result of `re.search` comes from a
successful match at some start position, i.e. on some suffix. -/
theorem searchAux_some_suffix {l r : List Char} (h : searchAux l = some r) :
    ∃ s, s <:+ l ∧ matchAt s = some r := by
  induction l with
  | nil => simp [searchAux] at h
  | cons c rest ih =>
    rw [searchAux] at h
    cases hm : matchAt (c :: rest) with
    | some r2 =>
      rw [hm] at h
      cases h
      exact ⟨c :: rest, List.suffix_refl _, hm⟩
    | none =>
      rw [hm] at h
      obtain ⟨s, hs, hm2⟩ := ih h
      exact ⟨s, hs.trans (List.suffix_cons c rest), hm2⟩

/-- Completeness of the scan: if the pattern matches at some position,
`re.search` reports a match (the leftmost one). -/
theorem searchAux_isSome_of_suffix {l s : List Char} (hs : s <:+ l) {r : List Char}
    (hm : matchAt s = some r) : ∃ r2, searchAux l = some r2 := by
  induction l with
  | nil =>
    rw [List.suffix_nil.mp hs] at hm
    simp [matchAt] at hm
  | cons c rest ih =>
    rcases List.suffix_cons_iff.mp hs with rfl | hs2
    · exact ⟨r, by rw [searchAux, hm]⟩
    · cases hm2 : matchAt (c :: rest) with
      | some r2 => exact ⟨r2, by rw [searchAux, hm2]⟩
      | none =>
        obtain ⟨r2, h2⟩ := ih hs2
        exact ⟨r2, by rw [searchAux, hm2, h2]⟩

/-- Correctness of `_obtain_id`'s scan on any URL ending in the regex's
shape `/{32-word-char hashid}/(items/{type}|tasks)/{id}[/]`, with an
arbitrary prefix before it: the scan succeeds and every position it can
succeed at extracts the final `{id}` segment, so the result is `{id}`. -/
theorem searchAux_url (p h mid i trail : List Char)
    (hh : h.length = 32) (hhw : h.all isWordChar = true)
    (hmid : (∃ t, mid = itemsLit ++ t ∧ t ≠ [] ∧ t.all isWordChar = true) ∨
      mid = tasksLit)
    (hi : i ≠ []) (hiw : i.all isIdChar = true)
    (ht : trail = [] ∨ trail = ['/']) :
    searchAux (p ++ '/' :: (h ++ '/' :: (mid ++ '/' :: (i ++ trail)))) = some i := by
  have hb := matchAt_boundary h mid i trail hh hhw hmid hi hiw ht
  have hsuf : '/' :: (h ++ '/' :: (mid ++ '/' :: (i ++ trail))) <:+
      p ++ '/' :: (h ++ '/' :: (mid ++ '/' :: (i ++ trail))) :=
    List.suffix_append p _
  obtain ⟨r2, hr2⟩ := searchAux_isSome_of_suffix hsuf hb
  obtain ⟨s, hssuf, hsm⟩ := searchAux_some_suffix hr2
  obtain ⟨u, husuf, hum⟩ := matchAt_some_matchIdPart hsm
  have hQ : p ++ '/' :: (h ++ '/' :: (mid ++ '/' :: (i ++ trail))) =
      (p ++ '/' :: (h ++ '/' :: mid)) ++ '/' :: (i ++ trail) := by
    simp [List.append_assoc]
  have husuf2 : u <:+ (p ++ '/' :: (h ++ '/' :: mid)) ++ '/' :: (i ++ trail) := by
    rw [← hQ]
    exact husuf.trans hssuf
  have : r2 = i :=
    matchIdPart_suffix_id (p ++ '/' :: (h ++ '/' :: mid)) i trail u r2
      hi hiw ht husuf2 hum
  rw [this] at hr2
  exact hr2

/-- C4: for every creation response whose body carries a
`response.url` ending in the shape
`/{32-character hashid}/(items/{type}|tasks)/{id}` with an optional
trailing slash (hashid and type made of word characters, id a nonempty
`[\w-]` run), `add_item` returns exactly the `{id}` segment as a
string, whatever precedes that suffix in the URL. -/
theorem add_item_extracts_url_id (item_type : String) (item_description : PyVal)
    (result : ApiResult) (p h mid i trail : List Char)
    (hurl : lookupEntry result.response "url" =
      some (PyVal.str (String.mk (p ++ '/' :: (h ++ '/' :: (mid ++ '/' :: (i ++ trail)))))))
    (hh : h.length = 32) (hhw : h.all isWordChar = true)
    (hmid : (∃ t, mid = itemsLit ++ t ∧ t ≠ [] ∧ t.all isWordChar = true) ∨
      mid = tasksLit)
    (hi : i ≠ []) (hiw : i.all isIdChar = true)
    (ht : trail = [] ∨ trail = ['/']) :
    add_item item_type item_description result = Except.ok (String.mk i) := by
  have hs := searchAux_url p h mid i trail hh hhw hmid hi hiw ht
  simp only [add_item, dict_getitem, hurl, _obtain_id]
  have htl : (String.mk (p ++ '/' :: (h ++ '/' :: (mid ++ '/' :: (i ++ trail))))).toList =
      p ++ '/' :: (h ++ '/' :: (mid ++ '/' :: (i ++ trail))) := rfl
  rw [htl, hs]
  rfl

/-- Witness for `add_item_extracts_url_id` at the spec's example: the
creation response body
`{"response": {"url": ".../abcdefabcdefabcdefabcdefabcdef12/items/product/99"}}`
makes `addItem` return `"99"`. -/
theorem add_item_extracts_url_id_witness :
    lookupEntry
        [("url", PyVal.str
          "https://eu1-api.doofinder.com/1/abcdefabcdefabcdefabcdefabcdef12/items/product/99")]
        "url" =
      some (PyVal.str
        "https://eu1-api.doofinder.com/1/abcdefabcdefabcdefabcdefabcdef12/items/product/99") ∧
      add_item "product" (PyVal.dict [])
        ⟨requests.codes.CREATED,
          [("url", PyVal.str
            "https://eu1-api.doofinder.com/1/abcdefabcdefabcdefabcdefabcdef12/items/product/99")]⟩ =
        Except.ok "99" :=
  ⟨rfl,
    add_item_extracts_url_id "product" (PyVal.dict [])
      ⟨requests.codes.CREATED,
        [("url", PyVal.str
          "https://eu1-api.doofinder.com/1/abcdefabcdefabcdefabcdefabcdef12/items/product/99")]⟩
      "https://eu1-api.doofinder.com/1".toList
      "abcdefabcdefabcdefabcdefabcdef12".toList
      "items/product".toList "99".toList []
      rfl rfl (by decide)
      (Or.inl ⟨"product".toList, rfl, by decide, by decide⟩)
      (by decide) (by decide) (Or.inl rfl)⟩
